import Mathlib

/-!
Shallow embedding of the order-management core of the repository
(src/database/models.py and src/database/PostgreSQLHandler.py).

Monetary values (`Product.price`, `OrderItem.unit_price`,
`OrderItem.total_price`, `Order.total_amount`) are Django
`DecimalField`s with two decimal places; the embedding represents them
as exact integer amounts in cents.  The Python code routes the running
order total through `float(...)` before storing it back into a
`DecimalField`; the embedding treats that conversion as exact, which it
is whenever the amounts stay inside the range where binary floating
point represents the decimal values exactly.

Database state is a record of the four tables.  Django's
`@transaction.atomic` together with `transaction.set_rollback(True)` in
the exception handlers is modelled by running the transaction body as a
state-passing computation in `Except` and discarding the produced state
on any error.  The `DJANGO_SETUP` guard (which short-circuits every
method when Django failed to initialise) is assumed to have succeeded.
-/

/-- Row of the `customers` table (models.py `Customer`); only the fields
the order core reads are kept (timestamps and free-text fields are
never consulted by the handler logic under study). -/
structure Customer where
  id : Nat
  first_name : String
  last_name : String
  email : String
  deriving Repr, DecidableEq

/-- Row of the `products` table (models.py `Product`).  `price` is the
`DecimalField(max_digits=10, decimal_places=2)` in cents; `quantity` is
the `IntegerField` stock counter.  `MinValueValidator` annotations are
application-level validators that Django does not run on
`objects.create`/`save`, and they produce no database constraint, so
they do not appear here. -/
structure Product where
  id : Nat
  name : String
  sku : String
  category : String
  price : Int
  quantity : Int
  is_active : Bool
  deriving Repr, DecidableEq

/-- Row of the `orders` table (models.py `Order`).  `status` is a plain
character column (the `choices` list is not enforced by the database),
`total_amount` is the `DecimalField(max_digits=12, decimal_places=2)`
in cents. -/
structure Order where
  id : Nat
  customer_id : Nat
  status : String
  total_amount : Int
  notes : String
  deriving Repr, DecidableEq

/-- Row of the `order_items` table (models.py `OrderItem`).  The table
carries `unique_together = ['order', 'product']`. -/
structure OrderItem where
  order_id : Nat
  product_id : Nat
  quantity : Int
  unit_price : Int
  total_price : Int
  deriving Repr, DecidableEq

/-- The database: one list per table, plus the id sequences backing the
auto-generated primary keys of `orders` and `products`. -/
structure DBState where
  customers : List Customer
  products : List Product
  orders : List Order
  order_items : List OrderItem
  next_order_id : Nat
  next_product_id : Nat
  deriving Repr, DecidableEq

/-- Exceptions the handler code raises or receives from the ORM:
`ObjectDoesNotExist` from `objects.get`, `ValueError` (with its
message) from the stock check, `IntegrityError` from a violated unique
constraint. -/
inductive DBError where
  | objectDoesNotExist
  | valueError (msg : String)
  | integrityError
  deriving Repr, DecidableEq

/-- Model of `Customer.objects.get(id=customer_id)`: first row with the
given primary key. -/
def DBState.getCustomer (s : DBState) (cid : Nat) : Option Customer :=
  s.customers.find? (fun c => c.id == cid)

/-- Model of `Product.objects.get(id=...)`. -/
def DBState.getProduct (s : DBState) (pid : Nat) : Option Product :=
  s.products.find? (fun p => p.id == pid)

/-- Model of `Order.objects.get(id=...)`. -/
def DBState.getOrder (s : DBState) (oid : Nat) : Option Order :=
  s.orders.find? (fun o => o.id == oid)

/-- Model of `Order.objects.create(customer=customer, notes=notes)`
(PostgreSQLHandler.py line 157): inserts a row with the defaults of the
model — `status='pending'`, `total_amount=0` — and a fresh primary
key. -/
def Order.create (s : DBState) (cid : Nat) (notes : String) : Order × DBState :=
  let o : Order :=
    { id := s.next_order_id, customer_id := cid, status := "pending"
      total_amount := 0, notes := notes }
  (o, { s with orders := s.orders ++ [o], next_order_id := s.next_order_id + 1 })

/-- Model of `order.save()` on an already-inserted order (the UPDATE
path used at PostgreSQLHandler.py line 183): replaces the row with the
matching primary key. -/
def Order.save (o : Order) (s : DBState) : DBState :=
  { s with orders := s.orders.map (fun r => if r.id == o.id then o else r) }

/-- Model of `product.save()` on an already-inserted product (the
UPDATE path used at PostgreSQLHandler.py line 177). -/
def Product.save (p : Product) (s : DBState) : DBState :=
  { s with products := s.products.map (fun r => if r.id == p.id then p else r) }

/-- Key predicate of the `unique_together = ['order', 'product']`
constraint on `order_items`: whether a stored row occupies the given
(order, product) slot. -/
def lineKey (oid pid : Nat) (r : OrderItem) : Bool :=
  r.order_id == oid && r.product_id == pid

/-- Model of models.py `OrderItem.save` on the INSERT path taken by
`OrderItem.objects.create` (PostgreSQLHandler.py lines 168-173): the
override first recomputes `total_price = unit_price * quantity`
(models.py line 193), then the insert is checked against the
`unique_together ['order', 'product']` constraint of the table, raising
`IntegrityError` when a row with the same (order, product) pair already
exists. -/
def OrderItem.save (oi : OrderItem) (s : DBState) : Except DBError (OrderItem × DBState) :=
  let oi := { oi with total_price := oi.unit_price * oi.quantity }
  if s.order_items.any (lineKey oi.order_id oi.product_id) then
    .error .integrityError
  else
    .ok (oi, { s with order_items := s.order_items ++ [oi] })

/-- One requested line of `create_order`'s `items` argument: the Python
dict with keys 'product_id' and 'quantity'. -/
structure ItemRequest where
  product_id : Nat
  quantity : Int
  deriving Repr, DecidableEq

/-- Message of the `ValueError` raised by the stock check
(PostgreSQLHandler.py line 165). -/
def insufficientMsg (name : String) (available requested : Int) : String :=
  "Недостаточно товара: " ++ name ++ ". На складе: " ++ toString available
    ++ ", требуется: " ++ toString requested

/-- The `for item in items` loop of `create_order`
(PostgreSQLHandler.py lines 160-179), with the running `total_amount`
accumulator threaded through.  Each iteration: look up the product
(`ObjectDoesNotExist` if absent), check the stock
(`if product.quantity < item['quantity']: raise ValueError(...)`),
create the `OrderItem` (which recomputes its `total_price` and may
raise `IntegrityError` on a duplicate (order, product) pair), persist
the decremented product quantity, and add `order_item.total_price` to
the running total. -/
def create_order_loop (order : Order) (items : List ItemRequest) (total : Int)
    (s : DBState) : Except DBError (Int × DBState) :=
  match items with
  | [] => .ok (total, s)
  | item :: rest =>
    match s.getProduct item.product_id with
    | none => .error .objectDoesNotExist
    | some product =>
      if product.quantity < item.quantity then
        .error (.valueError (insufficientMsg product.name product.quantity item.quantity))
      else
        match OrderItem.save
            { order_id := order.id, product_id := product.id, quantity := item.quantity
              unit_price := product.price, total_price := 0 } s with
        | .error e => .error e
        | .ok (order_item, s) =>
          let s := Product.save { product with quantity := product.quantity - item.quantity } s
          create_order_loop order rest (total + order_item.total_price) s

/-- Body of the `try:` block of `PostgreSQLHandler.create_order`
(PostgreSQLHandler.py lines 155-186): look up the customer, insert the
order, run the item loop, store the accumulated total on the order. -/
def create_order_tx (s : DBState) (customer_id : Nat) (items : List ItemRequest)
    (notes : String) : Except DBError (Order × DBState) :=
  match s.getCustomer customer_id with
  | none => .error .objectDoesNotExist
  | some customer =>
    let (order, s) := Order.create s customer.id notes
    match create_order_loop order items 0 s with
    | .error e => .error e
    | .ok (total_amount, s) =>
      let order := { order with total_amount := total_amount }
      .ok (order, Order.save order s)

namespace PostgreSQLHandler

/-- PostgreSQLHandler.create_order (lines 148-195): the transaction
body under `@transaction.atomic`; every `except` arm calls
`transaction.set_rollback(True)` and returns `None`, so on any raised
error the database state is left exactly as it was and the caller gets
nothing. -/
def create_order (s : DBState) (customer_id : Nat) (items : List ItemRequest)
    (notes : String) : DBState × Option Order :=
  match create_order_tx s customer_id items notes with
  | .ok (order, s2) => (s2, some order)
  | .error _ => (s, none)

/-- PostgreSQLHandler.update_order_status (lines 219-236): fetch the
order, assign `new_status` unconditionally — the source performs no
state-machine validation and the `choices` list is not a database
constraint — and save; `ObjectDoesNotExist` yields `False` with no
change. -/
def update_order_status (s : DBState) (order_id : Nat) (new_status : String) :
    DBState × Bool :=
  match s.getOrder order_id with
  | none => (s, false)
  | some order =>
    let order := { order with status := new_status }
    (Order.save order s, true)

/-- PostgreSQLHandler.create_product (lines 109-124):
`Product.objects.create(**kwargs)` inserts a row with the
caller-supplied field values; the only database constraint that can
reject it is the unique `sku`, reported as `IntegrityError` and turned
into `None`.  `MinValueValidator(0)` on `quantity` is not run on this
path, so a negative quantity is stored as given. -/
def create_product (s : DBState) (name sku category : String) (price quantity : Int) :
    DBState × Option Product :=
  if s.products.any (fun p => p.sku == sku) then
    (s, none)
  else
    let p : Product :=
      { id := s.next_product_id, name := name, sku := sku, category := category
        price := price, quantity := quantity, is_active := true }
    ({ s with products := s.products ++ [p], next_product_id := s.next_product_id + 1 },
     some p)

end PostgreSQLHandler

/-- Unit price snapshotted at order time multiplied by the requested
quantity, read from a given database state; zero when the product is
absent (the operation fails before using it in that case). -/
def lineTotal (s : DBState) (it : ItemRequest) : Int :=
  match s.getProduct it.product_id with
  | some p => p.price * it.quantity
  | none => 0

/-- Sum over a request list of `unit_price × quantity` with unit prices
snapshotted from a given state. -/
def lineSum (s : DBState) (items : List ItemRequest) : Int :=
  (items.map (lineTotal s)).sum

/-- The `unique_together ['order', 'product']` invariant on the
`order_items` table: no two rows share the same (order, product)
pair. -/
def LinesUnique (rows : List OrderItem) : Prop :=
  rows.Pairwise (fun a b => ¬ (a.order_id = b.order_id ∧ a.product_id = b.product_id))

/-- Well-formedness of the `orders` primary-key sequence: every stored
order line refers to an order id already issued, so the next id to be
issued is fresh. -/
def DBState.FreshOrderIds (s : DBState) : Prop :=
  ∀ r ∈ s.order_items, r.order_id < s.next_order_id

instance (s : DBState) : Decidable s.FreshOrderIds := by
  unfold DBState.FreshOrderIds; infer_instance

/-- Concrete two-product shop used by the witnesses and
counterexamples; mirrors the test data seeded by
PostgreSQLHandler.create_test_data (prices in cents). -/
def exState : DBState :=
  { customers := [{ id := 1, first_name := "Ivan", last_name := "Ivanov", email := "i@t" }]
    products :=
      [{ id := 1, name := "A", sku := "NB001", category := "electronics"
         price := 5000000, quantity := 10, is_active := true },
       { id := 2, name := "B", sku := "PH001", category := "electronics"
         price := 3000000, quantity := 15, is_active := true }]
    orders := [], order_items := [], next_order_id := 1, next_product_id := 3 }

/-- The example shop with one already-placed order, still pending. -/
def exOrderState : DBState :=
  { exState with
    orders := [{ id := 1, customer_id := 1, status := "pending", total_amount := 0, notes := "" }]
    next_order_id := 2 }

/-! Helper lemmas about the table primitives. -/

theorem find?_map_pred_inv {α : Type} (g : α → α) (q : α → Bool)
    (hq : ∀ a, q (g a) = q a) (l : List α) :
    (l.map g).find? q = (l.find? q).map g := by
  induction l with
  | nil => rfl
  | cons a l ih =>
    rw [List.map_cons]
    cases ha : q a with
    | true =>
      rw [List.find?_cons_of_pos _ (by rw [hq]; exact ha),
        List.find?_cons_of_pos _ ha, Option.map_some']
    | false =>
      rw [List.find?_cons_of_neg _ (by simp [hq, ha]),
        List.find?_cons_of_neg _ (by simp [ha]), ih]

theorem getProduct_id {s : DBState} {pid : Nat} {p : Product}
    (h : s.getProduct pid = some p) : p.id = pid := by
  have := List.find?_some h
  simpa using this

theorem getProduct_mem {s : DBState} {pid : Nat} {p : Product}
    (h : s.getProduct pid = some p) : p ∈ s.products :=
  List.mem_of_find?_eq_some h

theorem getProduct_product_save (p' : Product) (s : DBState) (pid : Nat) :
    (Product.save p' s).getProduct pid =
      (s.getProduct pid).map (fun x => if x.id == p'.id then p' else x) := by
  unfold DBState.getProduct Product.save
  simp only
  refine find?_map_pred_inv _ _ (fun a => ?_) _
  cases hb : a.id == p'.id with
  | true =>
    have hab : a.id = p'.id := by simpa using hb
    simp [hb, hab]
  | false => simp [hb]

theorem getProduct_save_ne {p' : Product} {s : DBState} {pid : Nat}
    (h : pid ≠ p'.id) :
    (Product.save p' s).getProduct pid = s.getProduct pid := by
  rw [getProduct_product_save]
  cases hf : s.getProduct pid with
  | none => rfl
  | some x =>
    have hx : x.id = pid := getProduct_id hf
    have hne : ¬ ((x.id == p'.id) = true) := by
      rw [hx]
      simp only [beq_iff_eq]
      exact h
    rw [Option.map_some', if_neg hne]

theorem getProduct_save_self {p' : Product} {s : DBState} {x : Product}
    (h : s.getProduct p'.id = some x) :
    (Product.save p' s).getProduct p'.id = some p' := by
  rw [getProduct_product_save, h]
  have hx : x.id = p'.id := getProduct_id h
  simp [hx]

theorem product_save_fields (p' : Product) (s : DBState) :
    (Product.save p' s).customers = s.customers ∧
    (Product.save p' s).orders = s.orders ∧
    (Product.save p' s).order_items = s.order_items ∧
    (Product.save p' s).next_order_id = s.next_order_id ∧
    (Product.save p' s).next_product_id = s.next_product_id := by
  unfold Product.save
  exact ⟨rfl, rfl, rfl, rfl, rfl⟩

theorem orderitem_save_ok {oi oi' : OrderItem} {s s' : DBState}
    (h : OrderItem.save oi s = .ok (oi', s')) :
    oi' = { oi with total_price := oi.unit_price * oi.quantity } ∧
    s' = { s with order_items := s.order_items ++ [oi'] } ∧
    s.order_items.any (lineKey oi.order_id oi.product_id) = false := by
  unfold OrderItem.save at h
  cases hc : s.order_items.any (lineKey oi.order_id oi.product_id) with
  | true => simp [hc] at h
  | false =>
    simp only [hc] at h
    simp only [Bool.false_eq_true, if_false] at h
    injection h with h
    injection h with h1 h2
    subst h1
    exact ⟨rfl, h2.symm, rfl⟩

theorem order_create_fields (s : DBState) (cid : Nat) (notes : String) :
    (Order.create s cid notes).2.customers = s.customers ∧
    (Order.create s cid notes).2.products = s.products ∧
    (Order.create s cid notes).2.order_items = s.order_items ∧
    (Order.create s cid notes).2.orders = s.orders ++ [(Order.create s cid notes).1] ∧
    (Order.create s cid notes).1.id = s.next_order_id := by
  unfold Order.create
  exact ⟨rfl, rfl, rfl, rfl, rfl⟩

theorem order_save_fields (o : Order) (s : DBState) :
    (Order.save o s).customers = s.customers ∧
    (Order.save o s).products = s.products ∧
    (Order.save o s).order_items = s.order_items := by
  unfold Order.save
  exact ⟨rfl, rfl, rfl⟩

theorem loop_ok_no_preexisting {order : Order} {items : List ItemRequest} {total : Int}
    {s : DBState} {t' : Int} {s' : DBState}
    (h : create_order_loop order items total s = .ok (t', s')) :
    ∀ it ∈ items, s.order_items.any (lineKey order.id it.product_id) = false := by
  induction items generalizing total s with
  | nil => intro it hit; cases hit
  | cons item rest ih =>
    intro it hit
    cases hp : s.getProduct item.product_id with
    | none => simp only [create_order_loop, hp] at h; cases h
    | some product =>
      by_cases hq : product.quantity < item.quantity
      · simp only [create_order_loop, hp, if_pos hq] at h; cases h
      · cases hs : OrderItem.save
            { order_id := order.id, product_id := product.id, quantity := item.quantity
              unit_price := product.price, total_price := 0 } s with
        | error e => simp only [create_order_loop, hp, if_neg hq, hs] at h; cases h
        | ok pr =>
          obtain ⟨oi', s₂⟩ := pr
          simp only [create_order_loop, hp, if_neg hq, hs] at h
          obtain ⟨hoi, hs2, hchk⟩ := orderitem_save_ok hs
          cases hit with
          | head =>
            rw [← getProduct_id hp]
            exact hchk
          | tail _ hmem =>
            have htail := ih h it hmem
            rw [(product_save_fields _ _).2.2.1, hs2] at htail
            simp only [List.any_append, Bool.or_eq_false_iff] at htail
            exact htail.1

theorem loop_ok_spec {order : Order} {items : List ItemRequest} {total : Int}
    {s : DBState} {t' : Int} {s' : DBState}
    (h : create_order_loop order items total s = .ok (t', s')) :
    (items.map fun it => it.product_id).Nodup ∧
    ∀ it ∈ items, ∃ p, s.getProduct it.product_id = some p ∧ it.quantity ≤ p.quantity := by
  induction items generalizing total s with
  | nil => exact ⟨List.nodup_nil, fun it hit => absurd hit (List.not_mem_nil it)⟩
  | cons item rest ih =>
    cases hp : s.getProduct item.product_id with
    | none => simp only [create_order_loop, hp] at h; cases h
    | some product =>
      by_cases hq : product.quantity < item.quantity
      · simp only [create_order_loop, hp, if_pos hq] at h; cases h
      · cases hs : OrderItem.save
            { order_id := order.id, product_id := product.id, quantity := item.quantity
              unit_price := product.price, total_price := 0 } s with
        | error e => simp only [create_order_loop, hp, if_neg hq, hs] at h; cases h
        | ok pr =>
          obtain ⟨oi', s₂⟩ := pr
          simp only [create_order_loop, hp, if_neg hq, hs] at h
          obtain ⟨hoi, hs2, hchk⟩ := orderitem_save_ok hs
          have hne : ∀ it ∈ rest, it.product_id ≠ item.product_id := by
            intro it hmem
            have htail := loop_ok_no_preexisting h it hmem
            rw [(product_save_fields _ _).2.2.1, hs2] at htail
            simp only [List.any_append, Bool.or_eq_false_iff] at htail
            have hsingle := htail.2
            simp only [List.any_cons, List.any_nil, Bool.or_false] at hsingle
            rw [hoi] at hsingle
            simp only [lineKey] at hsingle
            simp only [Bool.and_eq_false_iff, beq_eq_false_iff_ne] at hsingle
            rcases hsingle with hl | hr
            · exact absurd rfl hl
            · rw [← getProduct_id hp]
              exact fun he => hr he.symm
          have hmid : ∀ pid, pid ≠ item.product_id →
              (Product.save { product with quantity := product.quantity - item.quantity }
                s₂).getProduct pid = s.getProduct pid := by
            intro pid hpid
            have h1 : (Product.save { product with quantity := product.quantity - item.quantity }
                s₂).getProduct pid = s₂.getProduct pid := by
              apply getProduct_save_ne
              simpa [getProduct_id hp] using hpid
            rw [h1, hs2]
            rfl
          obtain ⟨ihnd, ihfit⟩ := ih h
          constructor
          · rw [List.map_cons]
            rw [List.nodup_cons]
            refine ⟨?_, ihnd⟩
            intro hmem
            obtain ⟨it, hit, hpid⟩ := List.mem_map.mp hmem
            exact hne it hit hpid
          · intro it hit
            cases hit with
            | head => exact ⟨product, hp, Int.not_lt.mp hq⟩
            | tail _ hmem =>
              obtain ⟨p, hpfind, hple⟩ := ihfit it hmem
              rw [hmid it.product_id (hne it hmem)] at hpfind
              exact ⟨p, hpfind, hple⟩

theorem loop_preserves_nonneg {order : Order} {items : List ItemRequest} {total : Int}
    {s : DBState} {t' : Int} {s' : DBState}
    (h : create_order_loop order items total s = .ok (t', s'))
    (hn : ∀ p ∈ s.products, 0 ≤ p.quantity) :
    ∀ p ∈ s'.products, 0 ≤ p.quantity := by
  induction items generalizing total s with
  | nil =>
    simp only [create_order_loop] at h
    injection h with h
    injection h with h1 h2
    subst h2
    exact hn
  | cons item rest ih =>
    cases hp : s.getProduct item.product_id with
    | none => simp only [create_order_loop, hp] at h; cases h
    | some product =>
      by_cases hq : product.quantity < item.quantity
      · simp only [create_order_loop, hp, if_pos hq] at h; cases h
      · cases hs : OrderItem.save
            { order_id := order.id, product_id := product.id, quantity := item.quantity
              unit_price := product.price, total_price := 0 } s with
        | error e => simp only [create_order_loop, hp, if_neg hq, hs] at h; cases h
        | ok pr =>
          obtain ⟨oi', s₂⟩ := pr
          simp only [create_order_loop, hp, if_neg hq, hs] at h
          obtain ⟨hoi, hs2, hchk⟩ := orderitem_save_ok hs
          refine ih h ?_
          intro p hp2
          simp only [Product.save] at hp2
          rw [hs2] at hp2
          simp only at hp2
          obtain ⟨x, hx, hgx⟩ := List.mem_map.mp hp2
          by_cases hxid : (x.id ==
              ({ product with quantity := product.quantity - item.quantity } : Product).id) = true
          · rw [if_pos hxid] at hgx
            rw [← hgx]
            exact Int.sub_nonneg.mpr (Int.not_lt.mp hq)
          · rw [if_neg hxid] at hgx
            rw [← hgx]
            exact hn x hx

theorem loop_preserves_unique {order : Order} {items : List ItemRequest} {total : Int}
    {s : DBState} {t' : Int} {s' : DBState}
    (h : create_order_loop order items total s = .ok (t', s'))
    (hu : LinesUnique s.order_items) :
    LinesUnique s'.order_items := by
  induction items generalizing total s with
  | nil =>
    simp only [create_order_loop] at h
    injection h with h
    injection h with h1 h2
    subst h2
    exact hu
  | cons item rest ih =>
    cases hp : s.getProduct item.product_id with
    | none => simp only [create_order_loop, hp] at h; cases h
    | some product =>
      by_cases hq : product.quantity < item.quantity
      · simp only [create_order_loop, hp, if_pos hq] at h; cases h
      · cases hs : OrderItem.save
            { order_id := order.id, product_id := product.id, quantity := item.quantity
              unit_price := product.price, total_price := 0 } s with
        | error e => simp only [create_order_loop, hp, if_neg hq, hs] at h; cases h
        | ok pr =>
          obtain ⟨oi', s₂⟩ := pr
          simp only [create_order_loop, hp, if_neg hq, hs] at h
          obtain ⟨hoi, hs2, hchk⟩ := orderitem_save_ok hs
          refine ih h ?_
          have hrows : (Product.save { product with quantity := product.quantity - item.quantity }
              s₂).order_items = s.order_items ++ [oi'] := by
            rw [(product_save_fields _ _).2.2.1, hs2]
          unfold LinesUnique
          rw [hrows, List.pairwise_append]
          refine ⟨hu, List.pairwise_singleton _ _, ?_⟩
          intro a ha b hb
          rw [List.mem_singleton] at hb
          subst hb
          have hna := List.any_eq_false.mp hchk a ha
          simp only [lineKey, Bool.and_eq_true, beq_iff_eq, not_and] at hna
          intro hcon
          rw [hoi] at hcon
          exact hna hcon.1 hcon.2

theorem lineSum_congr {s₁ s₂ : DBState} {items : List ItemRequest}
    (h : ∀ it ∈ items, s₁.getProduct it.product_id = s₂.getProduct it.product_id) :
    lineSum s₁ items = lineSum s₂ items := by
  unfold lineSum
  congr 1
  refine List.map_congr_left ?_
  intro it hit
  unfold lineTotal
  rw [h it hit]

theorem lineSum_cons (s : DBState) (it : ItemRequest) (rest : List ItemRequest) :
    lineSum s (it :: rest) = lineTotal s it + lineSum s rest := by
  simp [lineSum]

theorem getOrder_save_mem {o : Order} {s : DBState}
    (h : ∃ r ∈ s.orders, r.id = o.id) :
    (Order.save o s).getOrder o.id = some o := by
  obtain ⟨r, hr, hid⟩ := h
  unfold Order.save DBState.getOrder
  simp only
  have hinv : ∀ a : Order, ((if a.id == o.id then o else a).id == o.id) = (a.id == o.id) := by
    intro a
    cases hb : a.id == o.id with
    | true =>
      have hae : a.id = o.id := by simpa using hb
      simp [hb, hae]
    | false => simp [hb]
  rw [find?_map_pred_inv _ _ hinv]
  cases hf : s.orders.find? (fun a => a.id == o.id) with
  | none =>
    exfalso
    rw [List.find?_eq_none] at hf
    exact hf r hr (by simp [hid])
  | some x =>
    have hx : x.id = o.id := by simpa using List.find?_some hf
    simp [hx]

theorem loop_ok_of_valid {order : Order} {items : List ItemRequest} {s : DBState}
    (total : Int)
    (hnd : (items.map fun it => it.product_id).Nodup)
    (hfit : ∀ it ∈ items, ∃ p, s.getProduct it.product_id = some p ∧ it.quantity ≤ p.quantity)
    (hfresh : ∀ it ∈ items, s.order_items.any (lineKey order.id it.product_id) = false) :
    ∃ s', create_order_loop order items total s = .ok (total + lineSum s items, s') ∧
      (∀ pid, pid ∉ items.map (fun it => it.product_id) →
        s'.getProduct pid = s.getProduct pid) ∧
      (∀ it ∈ items, ∃ p, s.getProduct it.product_id = some p ∧
        s'.getProduct it.product_id = some { p with quantity := p.quantity - it.quantity }) ∧
      s'.customers = s.customers ∧ s'.orders = s.orders ∧
      s'.next_order_id = s.next_order_id := by
  induction items generalizing total s with
  | nil =>
    refine ⟨s, ?_, fun pid _ => rfl, fun it hit => absurd hit (List.not_mem_nil it), rfl, rfl, rfl⟩
    simp [create_order_loop, lineSum]
  | cons item rest ih =>
    obtain ⟨p, hp, hle⟩ := hfit item (List.mem_cons_self item rest)
    have hqneg : ¬ (p.quantity < item.quantity) := Int.not_lt.mpr hle
    have hpid : p.id = item.product_id := getProduct_id hp
    have hchk : s.order_items.any (lineKey order.id p.id) = false := by
      rw [hpid]
      exact hfresh item (List.mem_cons_self item rest)
    have hsave : OrderItem.save
        { order_id := order.id, product_id := p.id, quantity := item.quantity
          unit_price := p.price, total_price := 0 } s =
        .ok ({ order_id := order.id, product_id := p.id, quantity := item.quantity
               unit_price := p.price, total_price := p.price * item.quantity },
             { s with order_items := s.order_items ++
               [{ order_id := order.id, product_id := p.id, quantity := item.quantity
                  unit_price := p.price, total_price := p.price * item.quantity }] }) := by
      unfold OrderItem.save
      rw [if_neg (by rw [hchk]; exact Bool.false_ne_true)]
    have hstep : create_order_loop order (item :: rest) total s =
        create_order_loop order rest (total + p.price * item.quantity)
          (Product.save { p with quantity := p.quantity - item.quantity }
            { s with order_items := s.order_items ++
              [{ order_id := order.id, product_id := p.id, quantity := item.quantity
                 unit_price := p.price, total_price := p.price * item.quantity }] }) := by
      simp only [create_order_loop, hp, if_neg hqneg, hsave]
    have hnotmem : item.product_id ∉ rest.map fun it => it.product_id :=
      (List.nodup_cons.mp (by simpa using hnd)).1
    have hnd' : (rest.map fun it => it.product_id).Nodup :=
      (List.nodup_cons.mp (by simpa using hnd)).2
    have hrestne : ∀ it ∈ rest, it.product_id ≠ item.product_id := by
      intro it hit he
      exact hnotmem (he ▸ List.mem_map_of_mem (fun it => it.product_id) hit)
    have hmidget : ∀ pid, pid ≠ item.product_id →
        (Product.save { p with quantity := p.quantity - item.quantity }
          { s with order_items := s.order_items ++
            [{ order_id := order.id, product_id := p.id, quantity := item.quantity
               unit_price := p.price, total_price := p.price * item.quantity }] }).getProduct pid
          = s.getProduct pid := by
      intro pid hpidne
      rw [getProduct_save_ne (by simpa [hpid] using hpidne)]
      rfl
    have hfit' : ∀ it ∈ rest, ∃ q,
        (Product.save { p with quantity := p.quantity - item.quantity }
          { s with order_items := s.order_items ++
            [{ order_id := order.id, product_id := p.id, quantity := item.quantity
               unit_price := p.price, total_price := p.price * item.quantity }] }).getProduct
            it.product_id = some q ∧ it.quantity ≤ q.quantity := by
      intro it hit
      rw [hmidget it.product_id (hrestne it hit)]
      exact hfit it (List.mem_cons_of_mem item hit)
    have hfresh' : ∀ it ∈ rest,
        ((Product.save { p with quantity := p.quantity - item.quantity }
          { s with order_items := s.order_items ++
            [{ order_id := order.id, product_id := p.id, quantity := item.quantity
               unit_price := p.price, total_price := p.price * item.quantity }] }).order_items).any
          (lineKey order.id it.product_id) = false := by
      intro it hit
      rw [(product_save_fields _ _).2.2.1]
      simp only [List.any_append, List.any_cons, List.any_nil, Bool.or_false,
        Bool.or_eq_false_iff]
      refine ⟨hfresh it (List.mem_cons_of_mem item hit), ?_⟩
      simp only [lineKey, Bool.and_eq_false_iff, beq_eq_false_iff_ne]
      right
      rw [hpid]
      exact fun he => hrestne it hit he.symm
    obtain ⟨s₃, hrun, huntouched, hdec, hcust, hord, hnext⟩ :=
      ih (total + p.price * item.quantity) hnd' hfit' hfresh'
    refine ⟨s₃, ?_, ?_, ?_, ?_, ?_, ?_⟩
    · rw [hstep, hrun]
      have hsum : lineSum
          (Product.save { p with quantity := p.quantity - item.quantity }
            { s with order_items := s.order_items ++
              [{ order_id := order.id, product_id := p.id, quantity := item.quantity
                 unit_price := p.price, total_price := p.price * item.quantity }] }) rest
          = lineSum s rest :=
        lineSum_congr (fun it hit => hmidget it.product_id (hrestne it hit))
      rw [hsum, lineSum_cons]
      have hlt : lineTotal s item = p.price * item.quantity := by
        unfold lineTotal
        rw [hp]
      rw [hlt, Int.add_assoc]
    · intro pid hpidmem
      have h1 : pid ≠ item.product_id := by
        intro he
        exact hpidmem (by simp [he])
      have h2 : pid ∉ rest.map fun it => it.product_id := by
        intro hmem
        exact hpidmem (by simp [hmem])
      rw [huntouched pid h2, hmidget pid h1]
    · intro it hit
      cases hit with
      | head =>
        refine ⟨p, hp, ?_⟩
        rw [huntouched item.product_id hnotmem]
        have hmidself : (Product.save { p with quantity := p.quantity - item.quantity }
            { s with order_items := s.order_items ++
              [{ order_id := order.id, product_id := p.id, quantity := item.quantity
                 unit_price := p.price, total_price := p.price * item.quantity }] }).getProduct
              item.product_id
            = some { p with quantity := p.quantity - item.quantity } := by
          rw [← hpid]
          exact getProduct_save_self (x := p) (by rw [hpid]; exact hp)
        exact hmidself
      | tail _ hmem =>
        obtain ⟨q, hqget, hq3⟩ := hdec it hmem
        rw [hmidget it.product_id (hrestne it hmem)] at hqget
        exact ⟨q, hqget, hq3⟩
    · rw [hcust]; rfl
    · rw [hord]; rfl
    · rw [hnext]; rfl

theorem getOrder_id {s : DBState} {oid : Nat} {o : Order}
    (h : s.getOrder oid = some o) : o.id = oid := by
  have := List.find?_some h
  simpa using this

theorem getOrder_mem {s : DBState} {oid : Nat} {o : Order}
    (h : s.getOrder oid = some o) : o ∈ s.orders :=
  List.mem_of_find?_eq_some h

theorem getProduct_save_name {product : Product} {q' : Int} {s : DBState} {pid : Nat}
    {p'' : Product}
    (hfind : s.getProduct product.id = some product)
    (h : (Product.save { product with quantity := q' } s).getProduct pid = some p'') :
    ∃ x, s.getProduct pid = some x ∧ x.name = p''.name := by
  rw [getProduct_product_save] at h
  cases hx : s.getProduct pid with
  | none => rw [hx] at h; cases h
  | some x =>
    rw [hx, Option.map_some'] at h
    injection h with h
    by_cases hid : (x.id == ({ product with quantity := q' } : Product).id) = true
    · rw [if_pos hid] at h
      have hxid : x.id = product.id := by simpa using hid
      have hpid2 : pid = product.id := by rw [← getProduct_id hx, hxid]
      have hxp : x = product := by
        rw [hpid2, hfind] at hx
        injection hx with hx
        exact hx.symm
      refine ⟨x, rfl, ?_⟩
      rw [← h, hxp]
    · rw [if_neg hid] at h
      subst h
      exact ⟨x, rfl, rfl⟩

theorem loop_valueError_msg {order : Order} {items : List ItemRequest} {total : Int}
    {s : DBState} {m : String}
    (h : create_order_loop order items total s = .error (.valueError m)) :
    ∃ it ∈ items, ∃ p, s.getProduct it.product_id = some p ∧
      ∃ avail : Int, avail < it.quantity ∧ m = insufficientMsg p.name avail it.quantity := by
  induction items generalizing total s with
  | nil => simp only [create_order_loop] at h; cases h
  | cons item rest ih =>
    cases hp : s.getProduct item.product_id with
    | none =>
      simp only [create_order_loop, hp] at h
      injection h with h
      cases h
    | some product =>
      by_cases hq : product.quantity < item.quantity
      · simp only [create_order_loop, hp, if_pos hq] at h
        injection h with h
        injection h with h
        exact ⟨item, List.mem_cons_self item rest, product, hp, product.quantity, hq, h.symm⟩
      · cases hs : OrderItem.save
            { order_id := order.id, product_id := product.id, quantity := item.quantity
              unit_price := product.price, total_price := 0 } s with
        | error e =>
          simp only [create_order_loop, hp, if_neg hq, hs] at h
          have he : e = .integrityError := by
            unfold OrderItem.save at hs
            by_cases hcc : (s.order_items.any (lineKey order.id product.id)) = true
            · rw [if_pos hcc] at hs
              injection hs with hs
              exact hs.symm
            · rw [if_neg hcc] at hs
              cases hs
          rw [he] at h
          injection h with h
          cases h
        | ok pr =>
          obtain ⟨oi', s₂⟩ := pr
          simp only [create_order_loop, hp, if_neg hq, hs] at h
          obtain ⟨hoi, hs2, hchk⟩ := orderitem_save_ok hs
          obtain ⟨it, hit, p'', hget, avail, hlt, hm⟩ := ih h
          have hs2get : ∀ pid, s₂.getProduct pid = s.getProduct pid := by
            intro pid
            rw [hs2]
            rfl
          have hfind₂ : s₂.getProduct product.id = some product := by
            rw [getProduct_id hp, hs2get item.product_id]
            exact hp
          obtain ⟨x, hxget, hxname⟩ := getProduct_save_name hfind₂ hget
          rw [hs2get it.product_id] at hxget
          exact ⟨it, List.mem_cons_of_mem item hit, x, hxget, avail, hlt, by rw [hm, hxname]⟩

theorem create_order_eq_error {s : DBState} {cid : Nat} {items : List ItemRequest}
    {notes : String} {e : DBError}
    (h : create_order_tx s cid items notes = .error e) :
    PostgreSQLHandler.create_order s cid items notes = (s, none) := by
  unfold PostgreSQLHandler.create_order
  rw [h]

theorem create_order_eq_ok {s : DBState} {cid : Nat} {items : List ItemRequest}
    {notes : String} {o : Order} {s₂ : DBState}
    (h : create_order_tx s cid items notes = .ok (o, s₂)) :
    PostgreSQLHandler.create_order s cid items notes = (s₂, some o) := by
  unfold PostgreSQLHandler.create_order
  rw [h]

theorem tx_ok_inv {s : DBState} {cid : Nat} {items : List ItemRequest} {notes : String}
    {o : Order} {s₂ : DBState}
    (h : create_order_tx s cid items notes = .ok (o, s₂)) :
    ∃ customer t' s₃, s.getCustomer cid = some customer ∧
      create_order_loop (Order.create s customer.id notes).1 items 0
        (Order.create s customer.id notes).2 = .ok (t', s₃) ∧
      o = { (Order.create s customer.id notes).1 with total_amount := t' } ∧
      s₂ = Order.save o s₃ := by
  cases hc : s.getCustomer cid with
  | none => simp only [create_order_tx, hc] at h; cases h
  | some customer =>
    simp only [create_order_tx, hc, Order.create] at h
    split at h
    · cases h
    · rename_i t₀ s₀ heq
      injection h with h
      injection h with h1 h2
      subst h1
      exact ⟨customer, t₀, s₀, rfl, heq, rfl, h2.symm⟩

theorem tx_error_inv {s : DBState} {cid : Nat} {items : List ItemRequest} {notes : String}
    {e : DBError}
    (h : create_order_tx s cid items notes = .error e) :
    s.getCustomer cid = none ∨
    ∃ customer, s.getCustomer cid = some customer ∧
      create_order_loop (Order.create s customer.id notes).1 items 0
        (Order.create s customer.id notes).2 = .error e := by
  cases hc : s.getCustomer cid with
  | none => exact Or.inl rfl
  | some customer =>
    simp only [create_order_tx, hc, Order.create] at h
    split at h
    · rename_i e₀ heq
      injection h with h
      subst h
      exact Or.inr ⟨customer, rfl, heq⟩
    · cases h

/-! Claim theorems. -/

/-- C2: whenever some requested line's quantity exceeds that product's
current stock — and on every failure in general, since every error arm
rolls the transaction back — create_order returns None and leaves the
database state exactly as it was: no Order row, no OrderLine row, and
no stock change survive. -/
theorem c2_create_order_insufficient_rolls_back {s : DBState} {cid : Nat}
    {items : List ItemRequest} {notes : String}
    (h : ∃ it ∈ items, ∃ p, s.getProduct it.product_id = some p ∧ p.quantity < it.quantity) :
    PostgreSQLHandler.create_order s cid items notes = (s, none) := by
  cases ht : create_order_tx s cid items notes with
  | error e => exact create_order_eq_error ht
  | ok pr =>
    obtain ⟨o, s₂⟩ := pr
    exfalso
    obtain ⟨customer, t', s₃, hc, hloop, ho, hs₂⟩ := tx_ok_inv ht
    obtain ⟨it, hit, p, hp, hlt⟩ := h
    obtain ⟨-, hfit⟩ := loop_ok_spec hloop
    obtain ⟨q, hq, hle⟩ := hfit it hit
    have hq' : s.getProduct it.product_id = some q := hq
    rw [hp] at hq'
    injection hq' with hq'
    rw [← hq'] at hle
    exact absurd hle (Int.not_le.mpr hlt)

/-- C2 witness: requesting 20 units of product 1 (stock 10) fails and
leaves the state untouched. -/
theorem c2_witness :
    (∃ it ∈ ([⟨1, 20⟩] : List ItemRequest), ∃ p,
        exState.getProduct it.product_id = some p ∧ p.quantity < it.quantity) ∧
    PostgreSQLHandler.create_order exState 1 [⟨1, 20⟩] "" = (exState, none) :=
  ⟨⟨⟨1, 20⟩, List.mem_singleton_self _,
     ⟨1, "A", "NB001", "electronics", 5000000, 10, true⟩, by decide, by decide⟩,
   c2_create_order_insufficient_rolls_back
     ⟨⟨1, 20⟩, List.mem_singleton_self _,
      ⟨1, "A", "NB001", "electronics", 5000000, 10, true⟩, by decide, by decide⟩⟩

/-- C3: a non-existent customer id, or a non-existent product id
anywhere in the line list, makes create_order fail with the not-found
path and leaves the state unchanged. -/
theorem c3_create_order_not_found {s : DBState} {cid : Nat}
    {items : List ItemRequest} {notes : String}
    (h : s.getCustomer cid = none ∨ ∃ it ∈ items, s.getProduct it.product_id = none) :
    PostgreSQLHandler.create_order s cid items notes = (s, none) := by
  cases ht : create_order_tx s cid items notes with
  | error e => exact create_order_eq_error ht
  | ok pr =>
    obtain ⟨o, s₂⟩ := pr
    exfalso
    obtain ⟨customer, t', s₃, hc, hloop, ho, hs₂⟩ := tx_ok_inv ht
    rcases h with hnone | ⟨it, hit, hnone⟩
    · rw [hnone] at hc
      cases hc
    · obtain ⟨-, hfit⟩ := loop_ok_spec hloop
      obtain ⟨q, hq, -⟩ := hfit it hit
      have hq' : s.getProduct it.product_id = some q := hq
      rw [hnone] at hq'
      cases hq'

/-- C3 witness: customer 99 does not exist, and product 99 does not
exist; both calls fail with no rows created. -/
theorem c3_witness :
    (exState.getCustomer 99 = none ∨
      ∃ it ∈ ([⟨1, 2⟩] : List ItemRequest), exState.getProduct it.product_id = none) ∧
    PostgreSQLHandler.create_order exState 99 [⟨1, 2⟩] "" = (exState, none) :=
  ⟨Or.inl (by decide), c3_create_order_not_found (Or.inl (by decide))⟩

/-- C4: a request list naming the same product twice always fails (the
second insert violates the unique (order, product) rule) with the state
rolled back, and the at-most-one-line-per-(order, product) invariant of
the order_items table is preserved by every create_order call,
successful or not. -/
theorem c4_create_order_duplicate (s : DBState) (cid : Nat) (items : List ItemRequest)
    (notes : String) :
    (¬ (items.map fun it => it.product_id).Nodup →
      PostgreSQLHandler.create_order s cid items notes = (s, none)) ∧
    (LinesUnique s.order_items →
      LinesUnique (PostgreSQLHandler.create_order s cid items notes).1.order_items) := by
  constructor
  · intro hdup
    cases ht : create_order_tx s cid items notes with
    | error e => exact create_order_eq_error ht
    | ok pr =>
      obtain ⟨o, s₂⟩ := pr
      exfalso
      obtain ⟨customer, t', s₃, hc, hloop, ho, hs₂⟩ := tx_ok_inv ht
      exact hdup (loop_ok_spec hloop).1
  · intro hu
    cases ht : create_order_tx s cid items notes with
    | error e => rw [create_order_eq_error ht]; exact hu
    | ok pr =>
      obtain ⟨o, s₂⟩ := pr
      obtain ⟨customer, t', s₃, hc, hloop, ho, hs₂⟩ := tx_ok_inv ht
      rw [create_order_eq_ok ht]
      show LinesUnique s₂.order_items
      rw [hs₂]
      show LinesUnique s₃.order_items
      exact loop_preserves_unique hloop hu

/-- C4 witness: product 1 twice in one request fails and rolls back,
and uniqueness of the order_items table is preserved. -/
theorem c4_witness :
    PostgreSQLHandler.create_order exState 1 [⟨1, 2⟩, ⟨1, 3⟩] "" = (exState, none) ∧
    LinesUnique (PostgreSQLHandler.create_order exState 1 [⟨1, 2⟩, ⟨1, 3⟩] "").1.order_items :=
  ⟨(c4_create_order_duplicate exState 1 [⟨1, 2⟩, ⟨1, 3⟩] "").1 (by decide),
   (c4_create_order_duplicate exState 1 [⟨1, 2⟩, ⟨1, 3⟩] "").2 List.Pairwise.nil⟩

/-- C10: models.py OrderItem.save recomputes total_price from
unit_price and quantity before writing, so the stored row always
satisfies total_price = unit_price × quantity regardless of the
caller-supplied total_price, and the invariant over the whole table is
preserved. -/
theorem c10_orderitem_save_total {oi : OrderItem} {s : DBState} {oi' : OrderItem}
    {s' : DBState}
    (h : OrderItem.save oi s = .ok (oi', s')) :
    oi'.total_price = oi'.unit_price * oi'.quantity ∧
    oi'.unit_price = oi.unit_price ∧ oi'.quantity = oi.quantity ∧
    s'.order_items = s.order_items ++ [oi'] ∧
    ((∀ r ∈ s.order_items, r.total_price = r.unit_price * r.quantity) →
      ∀ r ∈ s'.order_items, r.total_price = r.unit_price * r.quantity) := by
  obtain ⟨hoi, hs2, hchk⟩ := orderitem_save_ok h
  subst hoi
  refine ⟨rfl, rfl, rfl, by rw [hs2], ?_⟩
  intro hall r hr
  rw [hs2] at hr
  have hr' : r ∈ s.order_items ++
      [{ oi with total_price := oi.unit_price * oi.quantity }] := hr
  rcases List.mem_append.mp hr' with hl | hrr
  · exact hall r hl
  · rw [List.mem_singleton] at hrr
    subst hrr
    rfl

/-- C10 witness: saving a line with a stale total_price of 999 stores
total_price 10 × 3 = 30 instead. -/
theorem c10_witness :
    OrderItem.save ⟨1, 1, 3, 10, 999⟩ exState =
      .ok (⟨1, 1, 3, 10, 30⟩, { exState with order_items := [⟨1, 1, 3, 10, 30⟩] }) ∧
    (30 : Int) = 10 * 3 := by
  have h : OrderItem.save ⟨1, 1, 3, 10, 999⟩ exState =
      .ok (⟨1, 1, 3, 10, 30⟩, { exState with order_items := [⟨1, 1, 3, 10, 30⟩] }) := rfl
  exact ⟨h, (c10_orderitem_save_total h).1⟩

/-- C5 (amended): starting from a state with nonnegative stock, a
create_order call (committed or rolled back) and an
update_order_status call leave every product's stock nonnegative: the
stock check guards the only decrement.  (The original claim over all
handler operations fails: see the counterexample via create_product.) -/
theorem c5_stock_nonneg {s : DBState} (cid : Nat) (items : List ItemRequest)
    (notes : String) (oid : Nat) (st : String)
    (hn : ∀ p ∈ s.products, 0 ≤ p.quantity) :
    (∀ p ∈ (PostgreSQLHandler.create_order s cid items notes).1.products, 0 ≤ p.quantity) ∧
    (∀ p ∈ (PostgreSQLHandler.update_order_status s oid st).1.products, 0 ≤ p.quantity) := by
  constructor
  · cases ht : create_order_tx s cid items notes with
    | error e => rw [create_order_eq_error ht]; exact hn
    | ok pr =>
      obtain ⟨o, s₂⟩ := pr
      obtain ⟨customer, t', s₃, hc, hloop, ho, hs₂⟩ := tx_ok_inv ht
      rw [create_order_eq_ok ht]
      show ∀ p ∈ s₂.products, 0 ≤ p.quantity
      rw [hs₂]
      show ∀ p ∈ s₃.products, 0 ≤ p.quantity
      exact loop_preserves_nonneg hloop hn
  · unfold PostgreSQLHandler.update_order_status
    split
    · exact hn
    · exact hn

/-- C5 counterexample: from a state whose stocks are all nonnegative,
create_product with a caller-supplied quantity of -1 commits — the
MinValueValidator is not enforced on objects.create and produces no
database constraint — leaving a product with negative stock. -/
theorem c5_counterexample :
    (∀ p ∈ exState.products, 0 ≤ p.quantity) ∧
    ¬ (∀ p ∈ (PostgreSQLHandler.create_product exState "X" "SKU9" "other" 100 (-1)).1.products,
        0 ≤ p.quantity) := by
  constructor
  · decide
  · decide

/-- C5 witness: the amended theorem at the concrete two-product shop. -/
theorem c5_witness :
    (∀ p ∈ exState.products, 0 ≤ p.quantity) ∧
    (∀ p ∈ (PostgreSQLHandler.create_order exState 1 [⟨1, 2⟩] "").1.products, 0 ≤ p.quantity) ∧
    (∀ p ∈ (PostgreSQLHandler.update_order_status exState 1 "shipped").1.products,
      0 ≤ p.quantity) := by
  have hn : ∀ p ∈ exState.products, 0 ≤ p.quantity := by decide
  have h := c5_stock_nonneg 1 [⟨1, 2⟩] "" 1 "shipped" hn
  exact ⟨hn, h.1, h.2⟩

/-- C6: with an existing customer and an empty line list, create_order
succeeds, produces an order with total_amount 0 and no lines, and
changes no product stock. -/
theorem c6_create_order_empty {s : DBState} {cid : Nat} {notes : String} {c : Customer}
    (hc : s.getCustomer cid = some c) (hwf : s.FreshOrderIds) :
    ∃ o s', PostgreSQLHandler.create_order s cid [] notes = (s', some o) ∧
      o.total_amount = 0 ∧ s'.products = s.products ∧ s'.order_items = s.order_items ∧
      ∀ r ∈ s'.order_items, r.order_id ≠ o.id := by
  have htx : create_order_tx s cid [] notes = .ok
      ({ (Order.create s c.id notes).1 with total_amount := 0 },
        Order.save { (Order.create s c.id notes).1 with total_amount := 0 }
          (Order.create s c.id notes).2) := by
    simp only [create_order_tx, hc, Order.create, create_order_loop]
  refine ⟨_, _, create_order_eq_ok htx, rfl, rfl, rfl, ?_⟩
  intro r hr
  have hr' : r ∈ s.order_items := hr
  exact Nat.ne_of_lt (hwf r hr')

/-- C6 witness: empty order for customer 1 of the example shop. -/
theorem c6_witness :
    exState.getCustomer 1 = some ⟨1, "Ivan", "Ivanov", "i@t"⟩ ∧ exState.FreshOrderIds ∧
    ∃ o s', PostgreSQLHandler.create_order exState 1 [] "" = (s', some o) ∧
      o.total_amount = 0 ∧ s'.products = exState.products ∧
      s'.order_items = exState.order_items ∧
      ∀ r ∈ s'.order_items, r.order_id ≠ o.id :=
  ⟨by decide, by decide,
    c6_create_order_empty (show exState.getCustomer 1 =
      some ⟨1, "Ivan", "Ivanov", "i@t"⟩ by decide) (by decide)⟩

/-- C7: every insufficient-stock failure of the create_order
transaction body carries the ValueError message built at
PostgreSQLHandler.py line 165, which contains the product's name, the
available quantity and the requested quantity. -/
theorem c7_insufficient_stock_message {s : DBState} {cid : Nat} {items : List ItemRequest}
    {notes : String} {m : String}
    (h : create_order_tx s cid items notes = .error (.valueError m)) :
    ∃ it ∈ items, ∃ p, s.getProduct it.product_id = some p ∧
      ∃ avail : Int, avail < it.quantity ∧ m = insufficientMsg p.name avail it.quantity := by
  cases hc : s.getCustomer cid with
  | none =>
    simp only [create_order_tx, hc] at h
    injection h with h
    cases h
  | some customer =>
    simp only [create_order_tx, hc, Order.create] at h
    split at h
    · rename_i e₀ heq
      injection h with h
      subst h
      have hmsg := loop_valueError_msg heq
      exact hmsg
    · cases h

/-- C7 witness: requesting 50 units of product 1 (stock 10, name "A")
raises the ValueError whose message embeds name, available and
requested quantities. -/
theorem c7_witness :
    ∃ it ∈ ([⟨1, 50⟩] : List ItemRequest), ∃ p,
      exState.getProduct it.product_id = some p ∧
      ∃ avail : Int, avail < it.quantity ∧
        insufficientMsg "A" 10 50 = insufficientMsg p.name avail it.quantity := by
  have h : create_order_tx exState 1 [⟨1, 50⟩] "" =
      .error (.valueError (insufficientMsg "A" 10 50)) := rfl
  exact c7_insufficient_stock_message h

/-- C8 (amended): update_order_status performs no state-machine
validation at all: for an existing order it unconditionally overwrites
the status with the caller-supplied string — whatever the current and
requested values — and returns True; only a missing order id makes it
return False with the state unchanged. -/
theorem c8_update_status_unvalidated (s : DBState) (oid : Nat) (st : String) :
    (∀ o, s.getOrder oid = some o →
      PostgreSQLHandler.update_order_status s oid st =
        (Order.save { o with status := st } s, true) ∧
      (PostgreSQLHandler.update_order_status s oid st).1.getOrder oid =
        some { o with status := st }) ∧
    (s.getOrder oid = none →
      PostgreSQLHandler.update_order_status s oid st = (s, false)) := by
  constructor
  · intro o ho
    have heq : PostgreSQLHandler.update_order_status s oid st =
        (Order.save { o with status := st } s, true) := by
      simp only [PostgreSQLHandler.update_order_status, ho]
    refine ⟨heq, ?_⟩
    rw [heq]
    show (Order.save { o with status := st } s).getOrder oid = some { o with status := st }
    rw [← getOrder_id ho]
    exact getOrder_save_mem ⟨o, getOrder_mem ho, rfl⟩
  · intro ho
    simp only [PostgreSQLHandler.update_order_status, ho]

/-- C8 counterexample: the state machine forbids pending → delivered,
yet update_order_status accepts it, changes the status and reports
success — so invalid transitions are not rejected. -/
theorem c8_counterexample :
    (exOrderState.getOrder 1).map Order.status = some "pending" ∧
    (PostgreSQLHandler.update_order_status exOrderState 1 "delivered").2 = true ∧
    ((PostgreSQLHandler.update_order_status exOrderState 1 "delivered").1.getOrder 1).map
      Order.status = some "delivered" := by
  refine ⟨by decide, by decide, by decide⟩

/-- C8 witness: the amended theorem applied to the pending order of the
example state, with an arbitrary replacement status. -/
theorem c8_witness :
    PostgreSQLHandler.update_order_status exOrderState 1 "shipped" =
      (Order.save { id := 1, customer_id := 1, status := "shipped", total_amount := 0
                    notes := "" } exOrderState, true) ∧
    (PostgreSQLHandler.update_order_status exOrderState 1 "shipped").1.getOrder 1 =
      some { id := 1, customer_id := 1, status := "shipped", total_amount := 0, notes := "" } :=
  (c8_update_status_unvalidated exOrderState 1 "shipped").1
    { id := 1, customer_id := 1, status := "pending", total_amount := 0, notes := "" }
    (by decide)

/-- C1 (amended): for an existing customer and a request list whose
product ids are pairwise distinct, with every requested quantity
between 1 and the product's current stock, create_order succeeds; the
persisted order's total_amount is the sum of unit_price × quantity
over the lines with unit prices snapshotted at order time, and every
referenced product's stock drops by exactly the requested quantity.
(The original claim without the distinctness proviso fails on a
duplicated product id: see the counterexample.) -/
theorem c1_create_order_valid {s : DBState} {cid : Nat} {items : List ItemRequest}
    {notes : String} {c : Customer}
    (hc : s.getCustomer cid = some c)
    (hnd : (items.map fun it => it.product_id).Nodup)
    (hfit : ∀ it ∈ items, ∃ p, s.getProduct it.product_id = some p ∧
      1 ≤ it.quantity ∧ it.quantity ≤ p.quantity)
    (hwf : s.FreshOrderIds) :
    ∃ o s', PostgreSQLHandler.create_order s cid items notes = (s', some o) ∧
      o.total_amount = lineSum s items ∧ s'.getOrder o.id = some o ∧
      ∀ it ∈ items, ∃ p, s.getProduct it.product_id = some p ∧
        s'.getProduct it.product_id = some { p with quantity := p.quantity - it.quantity } := by
  have hfit' : ∀ it ∈ items, ∃ p,
      ((Order.create s c.id notes).2).getProduct it.product_id = some p ∧
        it.quantity ≤ p.quantity := by
    intro it hit
    obtain ⟨p, hp, -, h2⟩ := hfit it hit
    exact ⟨p, hp, h2⟩
  have hfresh : ∀ it ∈ items,
      ((Order.create s c.id notes).2).order_items.any
        (lineKey (Order.create s c.id notes).1.id it.product_id) = false := by
    intro it hit
    show s.order_items.any (lineKey s.next_order_id it.product_id) = false
    rw [List.any_eq_false]
    intro r hr
    simp only [lineKey, Bool.and_eq_true, beq_iff_eq, not_and]
    intro h1
    exact absurd h1 (Nat.ne_of_lt (hwf r hr))
  obtain ⟨s₃, hrun, huntouched, hdec, hcust, hord, hnext⟩ :=
    loop_ok_of_valid 0 hnd hfit' hfresh
  cases ht : create_order_tx s cid items notes with
  | error e =>
    exfalso
    rcases tx_error_inv ht with hnone | ⟨customer, hc₂, hloop⟩
    · rw [hnone] at hc
      cases hc
    · rw [hc] at hc₂
      injection hc₂ with hc₂
      subst hc₂
      rw [hrun] at hloop
      cases hloop
  | ok pr =>
    obtain ⟨o, s₂⟩ := pr
    obtain ⟨customer, t', s₃', hc₂, hloop, ho, hs₂⟩ := tx_ok_inv ht
    rw [hc] at hc₂
    injection hc₂ with hc₂
    subst hc₂
    rw [hrun] at hloop
    injection hloop with hloop
    injection hloop with hteq hseq
    subst hseq
    refine ⟨o, s₂, create_order_eq_ok ht, ?_, ?_, ?_⟩
    · rw [ho]
      show t' = lineSum s items
      rw [← hteq]
      show 0 + lineSum (Order.create s c.id notes).2 items = lineSum s items
      rw [Int.zero_add]
      exact lineSum_congr (fun it hit => rfl)
    · rw [hs₂]
      apply getOrder_save_mem
      refine ⟨(Order.create s c.id notes).1, ?_, ?_⟩
      · rw [hord]
        show (Order.create s c.id notes).1 ∈ s.orders ++ [(Order.create s c.id notes).1]
        exact List.mem_append_right _ (List.mem_singleton_self _)
      · rw [ho]
    · intro it hit
      obtain ⟨p, hp, hdecit⟩ := hdec it hit
      refine ⟨p, hp, ?_⟩
      rw [hs₂]
      show s₃.getProduct it.product_id = some { p with quantity := p.quantity - it.quantity }
      exact hdecit

/-- C1 counterexample: all quantities lie between 1 and the product's
current stock, the customer exists, yet the request fails because
product 1 occurs twice and the second line violates the unique
(order, product) constraint — so the claim needs the lines to name
pairwise distinct products. -/
theorem c1_counterexample :
    exState.getCustomer 1 = some ⟨1, "Ivan", "Ivanov", "i@t"⟩ ∧
    (∀ it ∈ ([⟨1, 2⟩, ⟨1, 3⟩] : List ItemRequest), ∃ p,
        exState.getProduct it.product_id = some p ∧ 1 ≤ it.quantity ∧
          it.quantity ≤ p.quantity) ∧
    PostgreSQLHandler.create_order exState 1 [⟨1, 2⟩, ⟨1, 3⟩] "" = (exState, none) := by
  refine ⟨by decide, ?_, by decide⟩
  intro it hit
  cases hit with
  | head =>
    exact ⟨⟨1, "A", "NB001", "electronics", 5000000, 10, true⟩, by decide, by decide, by decide⟩
  | tail _ h2 =>
    cases h2 with
    | head =>
      exact ⟨⟨1, "A", "NB001", "electronics", 5000000, 10, true⟩, by decide, by decide, by decide⟩
    | tail _ h3 => cases h3

/-- C1 witness: the spec's worked example — stock {A: 10, B: 15},
request [(A, 2), (B, 3)], prices {A: 50000.00, B: 30000.00} — succeeds
with total 190000.00 and post-state stock {A: 8, B: 12}. -/
theorem c1_witness :
    exState.getCustomer 1 = some ⟨1, "Ivan", "Ivanov", "i@t"⟩ ∧
    (([⟨1, 2⟩, ⟨2, 3⟩] : List ItemRequest).map fun it => it.product_id).Nodup ∧
    exState.FreshOrderIds ∧
    ∃ o s', PostgreSQLHandler.create_order exState 1 [⟨1, 2⟩, ⟨2, 3⟩] "" = (s', some o) ∧
      o.total_amount = lineSum exState [⟨1, 2⟩, ⟨2, 3⟩] ∧ s'.getOrder o.id = some o ∧
      ∀ it ∈ ([⟨1, 2⟩, ⟨2, 3⟩] : List ItemRequest), ∃ p,
        exState.getProduct it.product_id = some p ∧
        s'.getProduct it.product_id = some { p with quantity := p.quantity - it.quantity } :=
  ⟨by decide, by decide, by decide,
    c1_create_order_valid
      (show exState.getCustomer 1 = some ⟨1, "Ivan", "Ivanov", "i@t"⟩ by decide)
      (show (([⟨1, 2⟩, ⟨2, 3⟩] : List ItemRequest).map fun it => it.product_id).Nodup
        by decide)
      (by
        intro it hit
        cases hit with
        | head =>
          exact ⟨⟨1, "A", "NB001", "electronics", 5000000, 10, true⟩,
            by decide, by decide, by decide⟩
        | tail _ h2 =>
          cases h2 with
          | head =>
            exact ⟨⟨2, "B", "PH001", "electronics", 3000000, 15, true⟩,
              by decide, by decide, by decide⟩
          | tail _ h3 => cases h3)
      (show exState.FreshOrderIds by decide)⟩
